import Mathlib

/-!
Verification of the nfcsdk lifecycle and event-loop controller.

The Go code of the controller (package nfcsdk: SDK.Run, SDK.SelectReader,
SDK.init, SDK.dispose, SDK.Disposed, SDK.handleCard and the logging facade)
is embedded shallowly below.  External calls into the pcsc capability
(IsValid, GetStatusChange, Connect, Disconnect, Cancel, Release,
SCardEstablishContext, ListReaders) are modelled by an explicit environment
that supplies the result of the n-th call of each kind; all observable
side effects (log events, the cancellation cause, waits on the background
cleanup task, and the arguments of each external call) are recorded in the
state so that the specification claims can be stated over them.
-/

namespace Nfcsdk

/-- Atomic error values produced by the controller and by the external pcsc
capability.  The numeric code distinguishes otherwise identical external
failures. -/
inductive ErrAtom where
  | hctxInvalid (code : Nat) : ErrAtom
  | noReadersPresent : ErrAtom
  | noReadersListed : ErrAtom
  | noReadersEnabled : ErrAtom
  | selectorFail (code : Nat) : ErrAtom
  | waitFail (code : Nat) : ErrAtom
  | connectFail (code : Nat) : ErrAtom
  | disconnectFail (code : Nat) : ErrAtom
  | establishFail (code : Nat) : ErrAtom
  | listFail (code : Nat) : ErrAtom
  | cancelFail (code : Nat) : ErrAtom
  | releaseFail (code : Nat) : ErrAtom
deriving DecidableEq, Repr

/-- A Go error value: nil is the empty list, and errors.Join concatenates the
non-nil components of its arguments. -/
abbrev GoError := List ErrAtom

/-- Rendering of an atomic error, standing in for Go Error() strings. -/
def ErrAtom.message : ErrAtom → String
  | .hctxInvalid c => "scard context invalid " ++ toString c
  | .noReadersPresent => "nfc: no readers present"
  | .noReadersListed => "nfc: no readers returned by ListReaders"
  | .noReadersEnabled => "nfc: no readers enabled"
  | .selectorFail c => "reader select failed " ++ toString c
  | .waitFail c => "get status change failed " ++ toString c
  | .connectFail c => "connect failed " ++ toString c
  | .disconnectFail c => "disconnect failed " ++ toString c
  | .establishFail c => "establish context failed " ++ toString c
  | .listFail c => "list readers failed " ++ toString c
  | .cancelFail c => "cancel failed " ++ toString c
  | .releaseFail c => "release failed " ++ toString c

/-- The Error() string of a joined Go error value. -/
def GoError.message (e : GoError) : String :=
  String.intercalate "; " (e.map ErrAtom.message)

/-- Modelled from the spec: the pcsc state bitmasks are opaque; the
controller only relies on the unaware initial value and the present bit
(spec section 4.3).  The pcsc package is part of this repository but not
under src. -/
def ScardStateUnaware : Nat := 0

/-- Modelled from the spec: the card-present bit of the pcsc state
bitmask. -/
def ScardStatePresent : Nat := 32

/-- Modelled from the spec: exclusive share mode passed to connect (spec
section 6). -/
def ScardShareExclusive : Nat := 1

/-- Modelled from the spec: protocol auto-negotiation directive passed to
connect (spec section 6). -/
def ScardProtocolAny : Nat := 3

/-- Modelled from the spec: the reset disposition passed to disconnect
(spec section 6). -/
def ScardResetCard : Nat := 1

/-- Modelled from the spec: the Reader record of section 3 -
id (1-based, assignment order), name (opaque handle), use flag.  The Go
type is declared in this repository outside src. -/
structure Reader where
  id : Nat
  name : String
  Use : Bool := false
deriving DecidableEq, Repr

/-- Modelled from the spec: a pcsc.ReaderState entry, one per selected
reader - reader name, the state last recorded by the controller, and the
state delivered by the last wait-for-change call (spec section 3). -/
structure ReaderState where
  Reader : String
  CurrentState : Nat := 0
  EventState : Nat := 0
deriving DecidableEq, Repr

/-- Modelled from the spec: the reader-selection policy takes the current
reader list and returns the subset to use plus an error (spec section
4.2).  The Go type is declared in this repository outside src. -/
abbrev ReaderSelectFunc := List Reader → List Reader × GoError

/-- Levels of the slog facade. -/
inductive LogLevel where
  | debug : LogLevel
  | info : LogLevel
  | warn : LogLevel
  | error : LogLevel
deriving DecidableEq, Repr

/-- One emitted log event. -/
structure LogEvent where
  level : LogLevel
  msg : String
deriving DecidableEq, Repr

/-- The mutable state of the SDK struct, together with the observable
effects of a run: emitted log events, the recorded cancellation cause
(context.CancelCauseFunc retains the first cause), the number of waits on
the background cleanup task, and counters for the external cancel and
release calls made by dispose. -/
structure SDKState where
  hasLogger : Bool := true
  disposed : Bool := false
  readerSelect : Option ReaderSelectFunc := none
  readers : List Reader := []
  hctxPresent : Bool := true
  stopCause : Option GoError := none
  wgWaits : Nat := 0
  log : List LogEvent := []
  cancelCalls : Nat := 0
  releaseCalls : Nat := 0

/-- The fixed tag prepended to every log message. -/
def logTag : String := "nfc: "

/-- SDK.Log: a no-op when no logger is injected, otherwise appends one
event with the fixed tag. -/
def SDKState.Log (s : SDKState) (level : LogLevel) (msg : String) : SDKState :=
  if s.hasLogger then { s with log := s.log ++ [⟨level, logTag ++ msg⟩] } else s

/-- SDK.debug. -/
def SDKState.debug (s : SDKState) (msg : String) : SDKState :=
  s.Log .debug msg

/-- SDK.info. -/
def SDKState.info (s : SDKState) (msg : String) : SDKState :=
  s.Log .info msg

/-- SDK.warn. -/
def SDKState.warn (s : SDKState) (msg : String) : SDKState :=
  s.Log .warn msg

/-- SDK.error: logs nothing for a nil error, otherwise logs the message at
error level. -/
def SDKState.error (s : SDKState) (e : GoError) : SDKState :=
  if e = [] then s else s.Log .error e.message

/-- s.stop(err): context.CancelCauseFunc records the cause of the first
call only; later calls are no-ops. -/
def SDKState.stop (s : SDKState) (e : GoError) : SDKState :=
  match s.stopCause with
  | none => { s with stopCause := some e }
  | some _ => s

/-- s.wg.Wait(): the synchronization barrier on the background cleanup
task, recorded as a counter. -/
def SDKState.wgWait (s : SDKState) : SDKState :=
  { s with wgWaits := s.wgWaits + 1 }

/-- SDK.Disposed: thread-safe read of the disposal flag. -/
def SDKState.Disposed (s : SDKState) : Bool :=
  s.disposed

/-- Results of the external cancel and release calls made by one dispose
invocation. -/
structure DisposeEnv where
  cancelResult : GoError := []
  releaseResult : GoError := []

/-- SDK.dispose: warns and returns if already disposed; otherwise sets the
disposal flag and, when a pcsc context is held, cancels pending actions
and releases the context, logging but not propagating failures of either
step. -/
def SDKState.dispose (s : SDKState) (env : DisposeEnv) : SDKState :=
  if s.Disposed then
    s.warn "sdk already disposed"
  else
    let s := { s with disposed := true }
    let s := s.debug "disposing..."
    let s :=
      if s.hctxPresent then
        let s := s.debug "cancel pending actions"
        let s := { s with cancelCalls := s.cancelCalls + 1 }
        let s := s.error env.cancelResult
        let s := s.debug "released scard context"
        let s := { s with releaseCalls := s.releaseCalls + 1 }
        s.error env.releaseResult
      else s
    s.debug "sdk disposed"

/-- SDK.SelectReader: installs the callback only when none is installed
yet; otherwise warns and leaves the installed callback intact.  The
argument is optional because the Go function value may be nil. -/
def SDKState.SelectReader (s : SDKState) (fn : Option ReaderSelectFunc) : SDKState :=
  match s.readerSelect with
  | some _ => s.warn "reader select callback can only be attached once"
  | none => { s with readerSelect := fn }

/-- Results of the external calls made by SDK.init: the error of
SCardEstablishContext, the error of ListReaders, and the reader names
delivered when ListReaders succeeds. -/
structure InitEnv where
  establishErr : GoError := []
  listErr : GoError := []
  readerNames : List String := []

/-- The for-loop of SDK.init: appends one Reader per name with 1-based ids
continuing from idx, logging each discovery. -/
def initReaders (s : SDKState) (names : List String) (idx : Nat) : SDKState :=
  match names with
  | [] => s
  | n :: rest =>
      let s := s.debug ("found reader " ++ n)
      let s := { s with readers := s.readers ++ [{ id := idx + 1, name := n }] }
      initReaders s rest (idx + 1)

/-- SDK.init: establishes the scard context, lists reader names, fails if
either call fails or the list is empty, and otherwise populates the
inventory in discovery order. -/
def SDKState.init (s : SDKState) (env : InitEnv) : SDKState × GoError :=
  if env.establishErr ≠ [] then
    ({ s with hctxPresent := false }, env.establishErr)
  else
    let s := { s with hctxPresent := true }
    let s := s.debug "scard context established"
    if env.listErr ≠ [] then (s, env.listErr)
    else if env.readerNames = [] then (s, [ErrAtom.noReadersListed])
    else (initReaders s env.readerNames 0, [])

/-- Results of the external calls made during SDK.Run, indexed by how many
calls of the same kind happened before: the n-th IsValid result, the n-th
GetStatusChange result (error plus the event states delivered into the
entries of the states slice), the n-th Connect result, the n-th Disconnect
result, and whether the run context is already cancelled at the top of the
n-th loop iteration. -/
structure RunEnv where
  validAt : Nat → GoError := fun _ => []
  waitAt : Nat → GoError × List Nat := fun _ => ([], [])
  connectAt : Nat → GoError := fun _ => []
  disconnectAt : Nat → GoError := fun _ => []
  doneAt : Nat → Bool := fun _ => false

/-- The SDK state together with the call counters and call logs of one
Run invocation: the number of IsValid, GetStatusChange, Connect and
Disconnect calls issued so far, the argument passed to each
GetStatusChange call, the arguments of each Connect call, and the
disposition argument of each Disconnect call. -/
structure RunSt where
  sdk : SDKState
  validCnt : Nat := 0
  waitCnt : Nat := 0
  connectCnt : Nat := 0
  disconnectCnt : Nat := 0
  waitLog : List (List ReaderState) := []
  connectLog : List (String × Nat × Nat) := []
  disconnectLog : List Nat := []

/-- SDK.handleCard: connects to the named reader with exclusive share mode
and protocol auto-negotiation; on failure logs the error and returns; on
success immediately disconnects with the reset disposition, logging but
not retrying a disconnect failure. -/
def handleCard (env : RunEnv) (rs : RunSt) (readerName : String) : RunSt :=
  let cerr := env.connectAt rs.connectCnt
  let rs := { rs with
    connectCnt := rs.connectCnt + 1
    connectLog := rs.connectLog ++ [(readerName, ScardShareExclusive, ScardProtocolAny)] }
  if cerr ≠ [] then { rs with sdk := rs.sdk.error cerr }
  else
    let rs := { rs with sdk := rs.sdk.debug "card connected" }
    let derr := env.disconnectAt rs.disconnectCnt
    let rs := { rs with
      disconnectCnt := rs.disconnectCnt + 1
      disconnectLog := rs.disconnectLog ++ [ScardResetCard] }
    if derr ≠ [] then { rs with sdk := rs.sdk.error derr }
    else { rs with sdk := rs.sdk.debug "card disconnected" }

/-- GetStatusChange mutates the EventState of each entry of the states
slice; entries beyond the delivered list keep their previous value. -/
def applyWait : List ReaderState → List Nat → List ReaderState
  | [], _ => []
  | sts, [] => sts
  | st :: sts, d :: ds => { st with EventState := d } :: applyWait sts ds

/-- The per-state for-loop of one Run iteration: copies EventState into
CurrentState, and for a present card revalidates the context (a failure
breaks the runner loop with that error, leaving later entries
unprocessed) and invokes handleCard.  Returns the updated states, the
updated run state and the break error, if any. -/
def innerLoop (env : RunEnv) (rs : RunSt) :
    List ReaderState → List ReaderState × RunSt × Option GoError
  | [] => ([], rs, none)
  | st :: rest =>
      let st := { st with CurrentState := st.EventState }
      if st.EventState &&& ScardStatePresent ≠ 0 then
        let rs := { rs with sdk := rs.sdk.debug "card is present in the reader." }
        let e := env.validAt rs.validCnt
        let rs := { rs with validCnt := rs.validCnt + 1 }
        if e ≠ [] then
          (st :: rest, { rs with sdk := rs.sdk.error e }, some e)
        else
          let rs := handleCard env rs st.Reader
          let out := innerLoop env rs rest
          (st :: out.1, out.2)
      else
        let rs := { rs with sdk := rs.sdk.debug "no card present, waiting..." }
        let out := innerLoop env rs rest
        (st :: out.1, out.2)

/-- The runner loop of SDK.Run, with explicit fuel: each iteration checks
cancellation, revalidates the context, issues one blocking
GetStatusChange over all tracked states, then processes each state.
Exhausted fuel behaves like cancellation (clean exit).  Returns the run
state, the final states and the error the loop broke with (nil on clean
exit). -/
def runLoop (env : RunEnv) :
    Nat → Nat → RunSt → List ReaderState → RunSt × List ReaderState × GoError
  | 0, _, rs, states => (rs, states, [])
  | fuel + 1, iter, rs, states =>
      if env.doneAt iter then (rs, states, [])
      else
        let e := env.validAt rs.validCnt
        let rs := { rs with validCnt := rs.validCnt + 1 }
        if e ≠ [] then ({ rs with sdk := rs.sdk.error e }, states, e)
        else
          let wr := env.waitAt rs.waitCnt
          let rs := { rs with waitCnt := rs.waitCnt + 1, waitLog := rs.waitLog ++ [states] }
          if wr.1 ≠ [] then ({ rs with sdk := rs.sdk.error wr.1 }, states, wr.1)
          else
            let states := applyWait states wr.2
            let out := innerLoop env rs states
            match out.2.2 with
            | some e => (out.2.1, out.1, e)
            | none => runLoop env fuel (iter + 1) out.2.1 out.1

/-- The default selection of SDK.Run when no callback is registered:
s.readers[0].Use = true.  The empty case cannot be reached in Run because
the emptiness check precedes selection. -/
def setFirstUse : List Reader → List Reader
  | [] => []
  | r :: rest => { r with Use := true } :: rest

/-- The states-construction loop of SDK.Run: one ReaderState per reader
with the use flag set, starting in the unaware state. -/
def buildStates : List Reader → List ReaderState
  | [] => []
  | r :: rest =>
      if r.Use then
        { Reader := r.name, CurrentState := ScardStateUnaware } :: buildStates rest
      else buildStates rest

/-- The outcome of SDK.Run: the final run state and the returned error. -/
structure RunResult where
  rs : RunSt
  err : GoError

/-- SDK.Run: revalidates the context and checks the inventory is
non-empty, failing fast through stop and the cleanup barrier; applies
reader selection (the registered callback, or using the first reader by
default); builds the tracked states and fails fast when none is enabled;
then drives the runner loop and waits on the cleanup barrier before
returning. -/
def Run (env : RunEnv) (s : SDKState) (fuel : Nat) : RunResult :=
  let e0 := env.validAt 0
  let s := s.error e0
  let err := if s.readers = [] then e0 ++ [ErrAtom.noReadersPresent] else e0
  if err ≠ [] then
    { rs := { sdk := (s.stop err).wgWait, validCnt := 1 }, err := err }
  else
    let sel :=
      match s.readerSelect with
      | some f =>
          let out := f s.readers
          ({ s with readers := out.1 }, out.2)
      | none => ({ s with readers := setFirstUse s.readers }, [])
    let s := sel.1
    if sel.2 ≠ [] then
      { rs := { sdk := (s.stop sel.2).wgWait, validCnt := 1 }, err := sel.2 }
    else
      let states := buildStates s.readers
      if states = [] then
        { rs := { sdk := (s.stop [ErrAtom.noReadersEnabled]).wgWait, validCnt := 1 },
          err := [ErrAtom.noReadersEnabled] }
      else
        let out := runLoop env fuel 0 { sdk := s, validCnt := 1 } states
        let rs := out.1
        let rs := { rs with sdk := rs.sdk.wgWait.debug "exiting" }
        { rs := rs, err := out.2.2 }

/-- The arming step of the loop body: every CurrentState is overwritten
with the EventState delivered by the wait call that just completed. -/
def armNext (sts : List ReaderState) : List ReaderState :=
  sts.map fun st => { st with CurrentState := st.EventState }

/-- The chain property of the arguments of the successive wait calls:
starting from sts with w wait calls already issued, each logged argument
is the previous one with the delivered event states copied into
CurrentState by the arming step. -/
def waitChain (env : RunEnv) : List ReaderState → Nat → List (List ReaderState) → Prop
  | _, _, [] => True
  | sts, w, entry :: rest =>
      entry = sts ∧ waitChain env (armNext (applyWait sts (env.waitAt w).2)) (w + 1) rest

/-- The inventory described by the specification: one reader per name,
ids continuing from idx, use unset.  Stated for comparison with the loop
of SDK.init. -/
def specInventory (idx : Nat) : List String → List Reader
  | [] => []
  | n :: rest => { id := idx + 1, name := n } :: specInventory (idx + 1) rest

/-! ### Concrete inputs used by witnesses and counterexamples -/

/-- A fresh SDK state with all defaults. -/
def sdk0 : SDKState := {}

/-- A first discovered reader. -/
def readerR0 : Reader := { id := 1, name := "R0" }

/-- A second discovered reader. -/
def readerR1 : Reader := { id := 2, name := "R1" }

/-- An SDK state holding one discovered reader. -/
def sdkOne : SDKState := { readers := [readerR0] }

/-- An SDK state holding two discovered readers. -/
def sdkTwo : SDKState := { readers := [readerR0, readerR1] }

/-- A selector that keeps the whole inventory unchanged. -/
def keepAllSelector : ReaderSelectFunc := fun rs => (rs, [])

/-- A selector that returns the empty subset without an error. -/
def emptySelector : ReaderSelectFunc := fun _ => ([], [])

/-- A selector that fails, returning an empty slice and an error. -/
def failSelector : ReaderSelectFunc := fun _ => ([], [ErrAtom.selectorFail 5])

/-- An SDK state with one reader and the empty selector registered. -/
def sdkEmptySel : SDKState := { readers := [readerR0], readerSelect := some emptySelector }

/-- An SDK state with one reader and the failing selector registered. -/
def sdkFailSel : SDKState := { readers := [readerR0], readerSelect := some failSelector }

/-- A run environment whose context is cancelled immediately. -/
def envIdle : RunEnv := { doneAt := fun _ => true }

/-- A run environment performing two clean iterations with no card
present, then cancelled. -/
def envTwoIter : RunEnv :=
  { doneAt := fun i => decide (2 ≤ i), waitAt := fun _ => ([], [0]) }

/-- A run environment whose first wait call fails. -/
def envWaitFail : RunEnv := { waitAt := fun _ => ([ErrAtom.waitFail 7], []) }

/-- A run environment whose context is invalid from the start. -/
def envInvalid : RunEnv := { validAt := fun _ => [ErrAtom.hctxInvalid 9] }

/-- A run environment whose context is valid at entry but invalidated
once the loop starts: the first revalidation inside the loop fails. -/
def envLoopInvalid : RunEnv :=
  { validAt := fun n => if n = 0 then [] else [ErrAtom.hctxInvalid 4] }

/-- A run environment reporting a present card whose connect always
fails, cancelled after two iterations. -/
def envConnFail : RunEnv :=
  { doneAt := fun i => decide (2 ≤ i)
    waitAt := fun _ => ([], [ScardStatePresent])
    connectAt := fun _ => [ErrAtom.connectFail 3] }

/-- An init environment discovering two readers. -/
def envInitTwo : InitEnv := { readerNames := ["R0", "R1"] }

/-- A fresh run state over a fresh SDK state. -/
def rsInit : RunSt := { sdk := {} }

/-! ### Preservation lemmas for the logging facade and the effect primitives -/

@[simp] theorem SDKState.Log_hasLogger (s : SDKState) (l : LogLevel) (m : String) :
    (s.Log l m).hasLogger = s.hasLogger := by
  unfold SDKState.Log; split <;> rfl

@[simp] theorem SDKState.Log_disposed (s : SDKState) (l : LogLevel) (m : String) :
    (s.Log l m).disposed = s.disposed := by
  unfold SDKState.Log; split <;> rfl

@[simp] theorem SDKState.Log_readerSelect (s : SDKState) (l : LogLevel) (m : String) :
    (s.Log l m).readerSelect = s.readerSelect := by
  unfold SDKState.Log; split <;> rfl

@[simp] theorem SDKState.Log_readers (s : SDKState) (l : LogLevel) (m : String) :
    (s.Log l m).readers = s.readers := by
  unfold SDKState.Log; split <;> rfl

@[simp] theorem SDKState.Log_hctxPresent (s : SDKState) (l : LogLevel) (m : String) :
    (s.Log l m).hctxPresent = s.hctxPresent := by
  unfold SDKState.Log; split <;> rfl

@[simp] theorem SDKState.Log_stopCause (s : SDKState) (l : LogLevel) (m : String) :
    (s.Log l m).stopCause = s.stopCause := by
  unfold SDKState.Log; split <;> rfl

@[simp] theorem SDKState.Log_wgWaits (s : SDKState) (l : LogLevel) (m : String) :
    (s.Log l m).wgWaits = s.wgWaits := by
  unfold SDKState.Log; split <;> rfl

@[simp] theorem SDKState.Log_cancelCalls (s : SDKState) (l : LogLevel) (m : String) :
    (s.Log l m).cancelCalls = s.cancelCalls := by
  unfold SDKState.Log; split <;> rfl

@[simp] theorem SDKState.Log_releaseCalls (s : SDKState) (l : LogLevel) (m : String) :
    (s.Log l m).releaseCalls = s.releaseCalls := by
  unfold SDKState.Log; split <;> rfl

@[simp] theorem SDKState.debug_eq (s : SDKState) (m : String) :
    s.debug m = s.Log .debug m := rfl

@[simp] theorem SDKState.info_eq (s : SDKState) (m : String) :
    s.info m = s.Log .info m := rfl

@[simp] theorem SDKState.warn_eq (s : SDKState) (m : String) :
    s.warn m = s.Log .warn m := rfl

@[simp] theorem SDKState.error_nil (s : SDKState) : s.error [] = s := by
  simp [SDKState.error]

@[simp] theorem SDKState.error_hasLogger (s : SDKState) (e : GoError) :
    (s.error e).hasLogger = s.hasLogger := by
  unfold SDKState.error; split <;> simp

@[simp] theorem SDKState.error_disposed (s : SDKState) (e : GoError) :
    (s.error e).disposed = s.disposed := by
  unfold SDKState.error; split <;> simp

@[simp] theorem SDKState.error_readerSelect (s : SDKState) (e : GoError) :
    (s.error e).readerSelect = s.readerSelect := by
  unfold SDKState.error; split <;> simp

@[simp] theorem SDKState.error_readers (s : SDKState) (e : GoError) :
    (s.error e).readers = s.readers := by
  unfold SDKState.error; split <;> simp

@[simp] theorem SDKState.error_hctxPresent (s : SDKState) (e : GoError) :
    (s.error e).hctxPresent = s.hctxPresent := by
  unfold SDKState.error; split <;> simp

@[simp] theorem SDKState.error_stopCause (s : SDKState) (e : GoError) :
    (s.error e).stopCause = s.stopCause := by
  unfold SDKState.error; split <;> simp

@[simp] theorem SDKState.error_wgWaits (s : SDKState) (e : GoError) :
    (s.error e).wgWaits = s.wgWaits := by
  unfold SDKState.error; split <;> simp

@[simp] theorem SDKState.error_cancelCalls (s : SDKState) (e : GoError) :
    (s.error e).cancelCalls = s.cancelCalls := by
  unfold SDKState.error; split <;> simp

@[simp] theorem SDKState.error_releaseCalls (s : SDKState) (e : GoError) :
    (s.error e).releaseCalls = s.releaseCalls := by
  unfold SDKState.error; split <;> simp

@[simp] theorem SDKState.stop_hasLogger (s : SDKState) (e : GoError) :
    (s.stop e).hasLogger = s.hasLogger := by
  unfold SDKState.stop; split <;> rfl

@[simp] theorem SDKState.stop_disposed (s : SDKState) (e : GoError) :
    (s.stop e).disposed = s.disposed := by
  unfold SDKState.stop; split <;> rfl

@[simp] theorem SDKState.stop_readerSelect (s : SDKState) (e : GoError) :
    (s.stop e).readerSelect = s.readerSelect := by
  unfold SDKState.stop; split <;> rfl

@[simp] theorem SDKState.stop_readers (s : SDKState) (e : GoError) :
    (s.stop e).readers = s.readers := by
  unfold SDKState.stop; split <;> rfl

@[simp] theorem SDKState.stop_wgWaits (s : SDKState) (e : GoError) :
    (s.stop e).wgWaits = s.wgWaits := by
  unfold SDKState.stop; split <;> rfl

@[simp] theorem SDKState.stop_log (s : SDKState) (e : GoError) :
    (s.stop e).log = s.log := by
  unfold SDKState.stop; split <;> rfl

theorem SDKState.stop_of_none (s : SDKState) (e : GoError) (h : s.stopCause = none) :
    (s.stop e).stopCause = some e := by
  unfold SDKState.stop; rw [h]

@[simp] theorem SDKState.wgWait_wgWaits (s : SDKState) : s.wgWait.wgWaits = s.wgWaits + 1 := rfl

@[simp] theorem SDKState.wgWait_readers (s : SDKState) : s.wgWait.readers = s.readers := rfl

@[simp] theorem SDKState.wgWait_stopCause (s : SDKState) : s.wgWait.stopCause = s.stopCause := rfl

@[simp] theorem SDKState.wgWait_disposed (s : SDKState) : s.wgWait.disposed = s.disposed := rfl

@[simp] theorem SDKState.wgWait_log (s : SDKState) : s.wgWait.log = s.log := rfl

@[simp] theorem SDKState.wgWait_hasLogger (s : SDKState) : s.wgWait.hasLogger = s.hasLogger := rfl

/-! ### Preservation lemmas for the loop machinery -/

theorem handleCard_preserved (env : RunEnv) (rs : RunSt) (name : String) :
    (handleCard env rs name).sdk.readers = rs.sdk.readers ∧
    (handleCard env rs name).sdk.stopCause = rs.sdk.stopCause ∧
    (handleCard env rs name).sdk.wgWaits = rs.sdk.wgWaits ∧
    (handleCard env rs name).sdk.disposed = rs.sdk.disposed ∧
    (handleCard env rs name).validCnt = rs.validCnt ∧
    (handleCard env rs name).waitCnt = rs.waitCnt ∧
    (handleCard env rs name).waitLog = rs.waitLog := by
  by_cases hc : env.connectAt rs.connectCnt = []
  · by_cases hd : env.disconnectAt rs.disconnectCnt = []
    · simp [handleCard, hc, hd]
    · simp [handleCard, hc, hd]
  · simp [handleCard, hc]

theorem innerLoop_preserved (env : RunEnv) (sts : List ReaderState) :
    ∀ rs : RunSt,
      (innerLoop env rs sts).2.1.sdk.readers = rs.sdk.readers ∧
      (innerLoop env rs sts).2.1.sdk.stopCause = rs.sdk.stopCause ∧
      (innerLoop env rs sts).2.1.sdk.wgWaits = rs.sdk.wgWaits ∧
      (innerLoop env rs sts).2.1.sdk.disposed = rs.sdk.disposed ∧
      (innerLoop env rs sts).2.1.waitCnt = rs.waitCnt ∧
      (innerLoop env rs sts).2.1.waitLog = rs.waitLog := by
  induction sts with
  | nil => intro rs; simp [innerLoop]
  | cons st rest ih =>
      intro rs
      by_cases hp : st.EventState &&& ScardStatePresent = 0
      · have h2 := ih { rs with sdk := rs.sdk.debug "no card present, waiting..." }
        simp [innerLoop, hp] at h2 ⊢
        exact h2
      · by_cases he : env.validAt rs.validCnt = []
        · have h1 := handleCard_preserved env
            { rs with
              sdk := rs.sdk.debug "card is present in the reader."
              validCnt := rs.validCnt + 1 } st.Reader
          have h2 := ih (handleCard env
            { rs with
              sdk := rs.sdk.debug "card is present in the reader."
              validCnt := rs.validCnt + 1 } st.Reader)
          simp [innerLoop, hp, he] at h1 h2 ⊢
          obtain ⟨a1, b1, c1, d1, e1, f1, g1⟩ := h1
          obtain ⟨a2, b2, c2, d2, e2, f2⟩ := h2
          refine ⟨?_, ?_, ?_, ?_, ?_, ?_⟩ <;> simp_all
        · simp [innerLoop, hp, he]

/-- When the per-state pass completes without breaking the runner loop,
the resulting states are exactly the armed states: CurrentState equals
EventState pointwise, and EventState is untouched. -/
theorem innerLoop_states_of_none (env : RunEnv) (sts : List ReaderState) :
    ∀ rs : RunSt, (innerLoop env rs sts).2.2 = none →
      (innerLoop env rs sts).1 = armNext sts := by
  induction sts with
  | nil => intro rs _; simp [innerLoop, armNext]
  | cons st rest ih =>
      intro rs h
      by_cases hp : st.EventState &&& ScardStatePresent = 0
      · have h2 := ih { rs with sdk := rs.sdk.debug "no card present, waiting..." }
        simp [innerLoop, hp, armNext] at h h2 ⊢
        exact h2 h
      · by_cases he : env.validAt rs.validCnt = []
        · have h2 := ih (handleCard env
            { rs with
              sdk := rs.sdk.debug "card is present in the reader."
              validCnt := rs.validCnt + 1 } st.Reader)
          simp [innerLoop, hp, he, armNext] at h h2 ⊢
          exact h2 h
        · simp [innerLoop, hp, he] at h

/-- A break of the per-state pass can only be caused by a failed
revalidation of the scard context: with an always-valid context no
connect or disconnect outcome breaks the runner loop. -/
theorem innerLoop_none_of_valid (env : RunEnv) (sts : List ReaderState)
    (hv : ∀ n, env.validAt n = []) :
    ∀ rs : RunSt, (innerLoop env rs sts).2.2 = none := by
  induction sts with
  | nil => intro rs; simp [innerLoop]
  | cons st rest ih =>
      intro rs
      by_cases hp : st.EventState &&& ScardStatePresent = 0
      · have h2 := ih { rs with sdk := rs.sdk.debug "no card present, waiting..." }
        simp [innerLoop, hp]
        exact h2
      · have h2 := ih (handleCard env
          { rs with
            sdk := rs.sdk.debug "card is present in the reader."
            validCnt := rs.validCnt + 1 } st.Reader)
        simp [innerLoop, hp, hv]
        exact h2

/-- The runner loop never touches the reader inventory, the cancellation
cause, the cleanup-barrier counter or the disposal flag. -/
theorem runLoop_preserved (env : RunEnv) (fuel : Nat) :
    ∀ iter : Nat, ∀ rs : RunSt, ∀ states : List ReaderState,
      (runLoop env fuel iter rs states).1.sdk.readers = rs.sdk.readers ∧
      (runLoop env fuel iter rs states).1.sdk.stopCause = rs.sdk.stopCause ∧
      (runLoop env fuel iter rs states).1.sdk.wgWaits = rs.sdk.wgWaits ∧
      (runLoop env fuel iter rs states).1.sdk.disposed = rs.sdk.disposed := by
  induction fuel with
  | zero => intro iter rs states; simp [runLoop]
  | succ n ih =>
      intro iter rs states
      by_cases hd : env.doneAt iter
      · simp [runLoop, hd]
      · by_cases he : env.validAt rs.validCnt = []
        · by_cases hw : (env.waitAt rs.waitCnt).1 = []
          · have hin := innerLoop_preserved env
              (applyWait states (env.waitAt rs.waitCnt).2)
              { rs with
                sdk := rs.sdk
                validCnt := rs.validCnt + 1
                waitCnt := rs.waitCnt + 1
                waitLog := rs.waitLog ++ [states] }
            cases hbr : (innerLoop env
                { rs with
                  sdk := rs.sdk
                  validCnt := rs.validCnt + 1
                  waitCnt := rs.waitCnt + 1
                  waitLog := rs.waitLog ++ [states] }
                (applyWait states (env.waitAt rs.waitCnt).2)).2.2 with
            | some e =>
                simp [runLoop, hd, he, hw, hbr] at hin ⊢
                exact ⟨hin.1, hin.2.1, hin.2.2.1, hin.2.2.2.1⟩
            | none =>
                have hrec := ih (iter + 1)
                  (innerLoop env
                    { rs with
                      sdk := rs.sdk
                      validCnt := rs.validCnt + 1
                      waitCnt := rs.waitCnt + 1
                      waitLog := rs.waitLog ++ [states] }
                    (applyWait states (env.waitAt rs.waitCnt).2)).2.1
                  (innerLoop env
                    { rs with
                      sdk := rs.sdk
                      validCnt := rs.validCnt + 1
                      waitCnt := rs.waitCnt + 1
                      waitLog := rs.waitLog ++ [states] }
                    (applyWait states (env.waitAt rs.waitCnt).2)).1
                simp [runLoop, hd, he, hw, hbr] at hin hrec ⊢
                refine ⟨?_, ?_, ?_, ?_⟩ <;> simp_all
          · simp [runLoop, hd, he, hw]
        · simp [runLoop, hd, he]

/-- With an always-valid context and always-successful wait calls, the
runner loop only ends by cancellation or fuel exhaustion, with a nil
error: per-card failures never end it. -/
theorem runLoop_clean (env : RunEnv)
    (hv : ∀ n, env.validAt n = []) (hw : ∀ n, (env.waitAt n).1 = []) (fuel : Nat) :
    ∀ iter : Nat, ∀ rs : RunSt, ∀ states : List ReaderState,
      (runLoop env fuel iter rs states).2.2 = [] := by
  induction fuel with
  | zero => intro iter rs states; simp [runLoop]
  | succ n ih =>
      intro iter rs states
      by_cases hd : env.doneAt iter
      · simp [runLoop, hd]
      · have hbr := innerLoop_none_of_valid env
          (applyWait states (env.waitAt rs.waitCnt).2) hv
          { rs with
            sdk := rs.sdk
            validCnt := rs.validCnt + 1
            waitCnt := rs.waitCnt + 1
            waitLog := rs.waitLog ++ [states] }
        simp [runLoop, hd, hv, hw, hbr]
        exact ih (iter + 1) _ _

/-- The runner loop appends its wait-call arguments to the log, and they
form a chain. -/
theorem runLoop_waitLog (env : RunEnv) (fuel : Nat) :
    ∀ iter : Nat, ∀ rs : RunSt, ∀ states : List ReaderState,
      ∃ d : List (List ReaderState),
        (runLoop env fuel iter rs states).1.waitLog = rs.waitLog ++ d ∧
        waitChain env states rs.waitCnt d := by
  induction fuel with
  | zero => intro iter rs states; exact ⟨[], by simp [runLoop], trivial⟩
  | succ n ih =>
      intro iter rs states
      by_cases hd : env.doneAt iter
      · exact ⟨[], by simp [runLoop, hd], trivial⟩
      · by_cases he : env.validAt rs.validCnt = []
        · by_cases hw : (env.waitAt rs.waitCnt).1 = []
          · have hin := innerLoop_preserved env
              (applyWait states (env.waitAt rs.waitCnt).2)
              { rs with
                sdk := rs.sdk
                validCnt := rs.validCnt + 1
                waitCnt := rs.waitCnt + 1
                waitLog := rs.waitLog ++ [states] }
            cases hbr : (innerLoop env
                { rs with
                  sdk := rs.sdk
                  validCnt := rs.validCnt + 1
                  waitCnt := rs.waitCnt + 1
                  waitLog := rs.waitLog ++ [states] }
                (applyWait states (env.waitAt rs.waitCnt).2)).2.2 with
            | some e =>
                refine ⟨[states], ?_, rfl, trivial⟩
                simp [runLoop, hd, he, hw, hbr] at hin ⊢
                simp_all
            | none =>
                have hst := innerLoop_states_of_none env
                  (applyWait states (env.waitAt rs.waitCnt).2)
                  { rs with
                    sdk := rs.sdk
                    validCnt := rs.validCnt + 1
                    waitCnt := rs.waitCnt + 1
                    waitLog := rs.waitLog ++ [states] } hbr
                obtain ⟨d2, hlog, hchain⟩ := ih (iter + 1)
                  (innerLoop env
                    { rs with
                      sdk := rs.sdk
                      validCnt := rs.validCnt + 1
                      waitCnt := rs.waitCnt + 1
                      waitLog := rs.waitLog ++ [states] }
                    (applyWait states (env.waitAt rs.waitCnt).2)).2.1
                  (innerLoop env
                    { rs with
                      sdk := rs.sdk
                      validCnt := rs.validCnt + 1
                      waitCnt := rs.waitCnt + 1
                      waitLog := rs.waitLog ++ [states] }
                    (applyWait states (env.waitAt rs.waitCnt).2)).1
                refine ⟨states :: d2, ?_, rfl, ?_⟩
                · simp [runLoop, hd, he, hw, hbr] at hin hlog ⊢
                  rw [hlog, hin.2.2.2.2.2]
                  simp
                · rw [hst] at hchain
                  rw [hin.2.2.2.2.1] at hchain
                  simpa using hchain
          · exact ⟨[states], by simp [runLoop, hd, he, hw], rfl, trivial⟩
        · exact ⟨[], by simp [runLoop, hd, he], trivial⟩

/-- Unfolding the chain: the first logged argument is the starting states,
and each later argument is the armed version of its predecessor under the
event states delivered by the wait call in between. -/
theorem waitChain_getD (env : RunEnv) (d : List (List ReaderState)) :
    ∀ sts0 : List ReaderState, ∀ w : Nat, waitChain env sts0 w d →
      (∀ x, d.head? = some x → x = sts0) ∧
      ∀ k : Nat, k + 1 < d.length →
        d[k + 1]?.getD [] = armNext (applyWait (d[k]?.getD []) (env.waitAt (w + k)).2) := by
  induction d with
  | nil =>
      intro sts0 w _
      exact ⟨by simp, by intro k hk; simp at hk⟩
  | cons entry rest ih =>
      intro sts0 w h
      obtain ⟨he, hc⟩ := h
      constructor
      · intro x hx
        simp at hx
        rw [← hx, he]
      · intro k hk
        cases k with
        | zero =>
            cases rest with
            | nil => simp at hk
            | cons r0 rrest =>
                obtain ⟨hr0, _⟩ := hc
                simp [he, hr0]
        | succ k2 =>
            have h2 := (ih _ _ hc).2 k2 (by simpa using hk)
            have harith : w + (k2 + 1) = w + 1 + k2 := by omega
            rw [harith]
            simpa using h2

/-! ### Characterizations of buildStates, initReaders and the Run branches -/

/-- Every tracked state starts unaware, with a zero event state. -/
theorem buildStates_unaware (rs : List Reader) :
    ∀ st ∈ buildStates rs, st.CurrentState = ScardStateUnaware ∧ st.EventState = 0 := by
  induction rs with
  | nil => intro st h; simp [buildStates] at h
  | cons r rest ih =>
      intro st h
      by_cases hu : r.Use
      · simp [buildStates, hu] at h
        rcases h with h | h
        · rw [h]; exact ⟨rfl, rfl⟩
        · exact ih st h
      · simp [buildStates, hu] at h
        exact ih st h

/-- A selection in which no reader is enabled yields no tracked states. -/
theorem buildStates_nil_of_no_use (rs : List Reader) (h : ∀ r ∈ rs, r.Use = false) :
    buildStates rs = [] := by
  induction rs with
  | nil => rfl
  | cons r rest ih =>
      have hr := h r (by simp)
      simp [buildStates, hr]
      exact ih fun x hx => h x (by simp [hx])

theorem initReaders_readers (names : List String) :
    ∀ s : SDKState, ∀ idx : Nat,
      (initReaders s names idx).readers = s.readers ++ specInventory idx names := by
  induction names with
  | nil => intro s idx; simp [initReaders, specInventory]
  | cons n rest ih =>
      intro s idx
      simp [initReaders, specInventory, ih]

theorem specInventory_getElem (names : List String) :
    ∀ idx i : Nat,
      (specInventory idx names)[i]?.map (fun r => (r.id, r.name, r.Use)) =
        names[i]?.map (fun n => (idx + i + 1, n, false)) := by
  induction names with
  | nil => intro idx i; simp [specInventory]
  | cons n rest ih =>
      intro idx i
      cases i with
      | zero => simp [specInventory]
      | succ j =>
          have h := ih (idx + 1) j
          simp [specInventory]
          rw [h]
          have : idx + 1 + j + 1 = idx + (j + 1) + 1 := by omega
          rw [this]

theorem specInventory_length (names : List String) :
    ∀ idx : Nat, (specInventory idx names).length = names.length := by
  induction names with
  | nil => intro idx; rfl
  | cons n rest ih => intro idx; simp [specInventory, ih]

/-- Run when the context is invalid at entry or the inventory is empty:
the accumulated error is signalled, the cleanup barrier is waited on, and
the error is returned without reaching selection or the loop. -/
theorem Run_preloop_fail (env : RunEnv) (s : SDKState) (fuel : Nat)
    (h : env.validAt 0 ≠ [] ∨ s.readers = []) :
    Run env s fuel =
      { rs := { sdk := ((s.error (env.validAt 0)).stop
                  (if s.readers = [] then env.validAt 0 ++ [ErrAtom.noReadersPresent]
                   else env.validAt 0)).wgWait,
                validCnt := 1 },
        err := if s.readers = [] then env.validAt 0 ++ [ErrAtom.noReadersPresent]
          else env.validAt 0 } := by
  have hcond : (if s.readers = [] then env.validAt 0 ++ [ErrAtom.noReadersPresent]
      else env.validAt 0) ≠ [] := by
    rcases h with h | h
    · by_cases hr : s.readers = [] <;> simp [hr, h]
    · simp [h]
  simp only [Run, SDKState.error_readers]
  rw [if_pos hcond]

/-- Run when the pre-checks pass but the registered selector fails: the
inventory is replaced by the selector output, the selector error is
signalled and returned, and the loop is not reached. -/
theorem Run_selector_err (env : RunEnv) (s : SDKState) (fuel : Nat)
    (f : ReaderSelectFunc) (rs2 : List Reader) (e : GoError)
    (hv : env.validAt 0 = []) (hr : s.readers ≠ [])
    (hsel : s.readerSelect = some f) (hf : f s.readers = (rs2, e)) (he : e ≠ []) :
    Run env s fuel =
      { rs := { sdk := (({ s with readers := rs2 }).stop e).wgWait, validCnt := 1 },
        err := e } := by
  simp [Run, hv, hr, hsel, hf, he]

/-- Run when selection succeeds but leaves no reader enabled: the
dedicated error is signalled and returned, and no wait call is issued. -/
theorem Run_none_enabled (env : RunEnv) (s : SDKState) (fuel : Nat)
    (f : ReaderSelectFunc) (rs2 : List Reader)
    (hv : env.validAt 0 = []) (hr : s.readers ≠ [])
    (hsel : s.readerSelect = some f) (hf : f s.readers = (rs2, []))
    (hb : buildStates rs2 = []) :
    Run env s fuel =
      { rs := { sdk := (({ s with readers := rs2 }).stop [ErrAtom.noReadersEnabled]).wgWait,
                validCnt := 1 },
        err := [ErrAtom.noReadersEnabled] } := by
  simp [Run, hv, hr, hsel, hf, hb]

/-- Run with no registered selector and a non-empty inventory: the first
reader is enabled by default and the runner loop is entered. -/
theorem Run_loop_default (env : RunEnv) (s : SDKState) (fuel : Nat)
    (r0 : Reader) (rest : List Reader)
    (hv : env.validAt 0 = []) (hr : s.readers = r0 :: rest) (hsel : s.readerSelect = none) :
    Run env s fuel =
      (let out := runLoop env fuel 0
        { sdk := { s with readers := { r0 with Use := true } :: rest }, validCnt := 1 }
        ({ Reader := r0.name, CurrentState := ScardStateUnaware, EventState := 0 } ::
          buildStates rest)
       { rs := { out.1 with sdk := out.1.sdk.wgWait.debug "exiting" }, err := out.2.2 }) := by
  simp [Run, hv, hr, hsel, setFirstUse, buildStates]

/-- Run with a registered selector that succeeds and enables at least one
reader: the inventory is replaced by the selector output and the runner
loop is entered on the states built from it. -/
theorem Run_loop_selector (env : RunEnv) (s : SDKState) (fuel : Nat)
    (f : ReaderSelectFunc) (rs2 : List Reader)
    (hv : env.validAt 0 = []) (hr : s.readers ≠ [])
    (hsel : s.readerSelect = some f) (hf : f s.readers = (rs2, []))
    (hb : buildStates rs2 ≠ []) :
    Run env s fuel =
      (let out := runLoop env fuel 0
        { sdk := { s with readers := rs2 }, validCnt := 1 } (buildStates rs2)
       { rs := { out.1 with sdk := out.1.sdk.wgWait.debug "exiting" }, err := out.2.2 }) := by
  simp [Run, hv, hr, hsel, hf, hb]

/-! ### Dispose and SelectReader helper lemmas -/

theorem dispose_sets_flag (s : SDKState) (env : DisposeEnv) (h : s.disposed = false) :
    (s.dispose env).disposed = true := by
  by_cases hp : s.hctxPresent <;>
  by_cases hc : env.cancelResult = [] <;>
  by_cases hrl : env.releaseResult = [] <;>
    simp [SDKState.dispose, SDKState.Disposed, h, hp, hc, hrl, SDKState.error]

theorem dispose_noop_of_disposed (t : SDKState) (e : DisposeEnv) (h : t.disposed = true) :
    t.dispose e = t.warn "sdk already disposed" := by
  simp [SDKState.dispose, SDKState.Disposed, h]

/-- Helper: a list of readers none of which is enabled filters to
nothing. -/
theorem filter_use_nil (rs : List Reader) (h : ∀ r ∈ rs, r.Use = false) :
    (rs.filter fun r => r.Use) = [] := by
  induction rs with
  | nil => rfl
  | cons r rest ih =>
      have hr := h r (by simp)
      simp [hr]
      intro x hx
      simp [h x (by simp [hx])]

theorem initReaders_hctxPresent (names : List String) :
    ∀ s : SDKState, ∀ idx : Nat,
      (initReaders s names idx).hctxPresent = s.hctxPresent := by
  induction names with
  | nil => intro s idx; simp [initReaders]
  | cons n rest ih => intro s idx; simp [initReaders, ih]

/-! ### Claim theorems -/

/-- C2: the disposal flag transitions false to true exactly once:
Disposed is false before the first dispose call and true after it; any
later dispose call is a no-op equal to emitting only the
already-disposed warning, leaving the flag true and re-executing neither
the cancel nor the release step on the scard context. -/
theorem dispose_once_idempotent (s : SDKState) (env1 env2 : DisposeEnv)
    (h : s.disposed = false) :
    s.Disposed = false ∧
    (s.dispose env1).Disposed = true ∧
    (s.dispose env1).dispose env2 = (s.dispose env1).warn "sdk already disposed" ∧
    ((s.dispose env1).dispose env2).Disposed = true ∧
    ((s.dispose env1).dispose env2).cancelCalls = (s.dispose env1).cancelCalls ∧
    ((s.dispose env1).dispose env2).releaseCalls = (s.dispose env1).releaseCalls ∧
    (∀ t : SDKState, ∀ e : DisposeEnv, t.disposed = true → (t.dispose e).Disposed = true) := by
  have h1 : (s.dispose env1).disposed = true := dispose_sets_flag s env1 h
  have h2 : (s.dispose env1).dispose env2 = (s.dispose env1).warn "sdk already disposed" :=
    dispose_noop_of_disposed _ env2 h1
  refine ⟨by simp [SDKState.Disposed, h], h1, h2, ?_, ?_, ?_, ?_⟩
  · rw [h2]; simp [SDKState.Disposed, h1]
  · rw [h2]; simp
  · rw [h2]; simp
  · intro t e ht
    rw [dispose_noop_of_disposed t e ht]
    simp [SDKState.Disposed, ht]

/-- Witness for C2 at the fresh SDK state. -/
theorem dispose_once_idempotent_witness :
    sdk0.disposed = false ∧
    (sdk0.Disposed = false ∧
      (sdk0.dispose {}).Disposed = true ∧
      ((sdk0.dispose {}).dispose {}).Disposed = true ∧
      ((sdk0.dispose {}).dispose {}).cancelCalls = (sdk0.dispose {}).cancelCalls ∧
      ((sdk0.dispose {}).dispose {}).releaseCalls = (sdk0.dispose {}).releaseCalls) :=
  ⟨rfl, by
    have h := dispose_once_idempotent sdk0 {} {} rfl
    exact ⟨h.1, h.2.1, h.2.2.2.1, h.2.2.2.2.1, h.2.2.2.2.2.1⟩⟩

/-- C3 counterexample: a first SelectReader call passing a nil callback
leaves the selector unset, so the second call is not a no-op - it
installs its callback - and no warning is emitted. -/
theorem selectReader_second_call_cex :
    (sdk0.SelectReader none).readerSelect.isSome = false ∧
    ((sdk0.SelectReader none).SelectReader (some keepAllSelector)).readerSelect.isSome = true ∧
    ((sdk0.SelectReader none).SelectReader (some keepAllSelector)).log = [] :=
  ⟨rfl, rfl, rfl⟩

/-- C3 (amended): when the first SelectReader call registers a non-nil
callback, every later call is a no-op: the installed policy stays
active, and the later call only emits a warning (observable whenever a
logger is injected).  A first call passing a nil callback leaves the
selector unset. -/
theorem selectReader_one_shot (s : SDKState) (f : ReaderSelectFunc)
    (g : Option ReaderSelectFunc) (h : s.readerSelect = none) :
    ((s.SelectReader (some f)).SelectReader g).readerSelect = some f ∧
    (s.hasLogger = true →
      ((s.SelectReader (some f)).SelectReader g).log =
        s.log ++ [{ level := .warn,
                    msg := logTag ++ "reader select callback can only be attached once" }]) ∧
    (∀ t : SDKState, ∀ f2 : ReaderSelectFunc, ∀ g2 : Option ReaderSelectFunc,
      t.readerSelect = some f2 → (t.SelectReader g2).readerSelect = some f2) := by
  refine ⟨?_, ?_, ?_⟩
  · simp [SDKState.SelectReader, h]
  · intro hl
    simp [SDKState.SelectReader, h, SDKState.Log, hl]
  · intro t f2 g2 ht
    simp [SDKState.SelectReader, ht]

/-- Witness for C3 (amended) at the fresh SDK state. -/
theorem selectReader_one_shot_witness :
    sdk0.readerSelect = none ∧
    (((sdk0.SelectReader (some keepAllSelector)).SelectReader none).readerSelect =
        some keepAllSelector ∧
      ((sdk0.SelectReader (some keepAllSelector)).SelectReader none).log =
        [{ level := .warn
           msg := logTag ++ "reader select callback can only be attached once" }]) :=
  ⟨rfl, by
    have h := selectReader_one_shot sdk0 keepAllSelector none rfl
    exact ⟨h.1, by simpa [sdk0] using h.2.1 rfl⟩⟩

/-- C7: init establishes the resource-manager session and lists reader
names; it fails when the establish or list call fails or the returned
list is empty, and otherwise succeeds and populates the inventory with
one reader per name, ids 1, 2, 3, ... in discovery order, use initially
unset. -/
theorem init_populates_inventory (s : SDKState) (env : InitEnv) (h0 : s.readers = []) :
    (env.establishErr ≠ [] → (s.init env).2 = env.establishErr) ∧
    (env.establishErr = [] → env.listErr ≠ [] → (s.init env).2 = env.listErr) ∧
    (env.establishErr = [] → env.listErr = [] → env.readerNames = [] →
      (s.init env).2 = [ErrAtom.noReadersListed]) ∧
    (env.establishErr = [] → env.listErr = [] → env.readerNames ≠ [] →
      (s.init env).2 = [] ∧
      (s.init env).1.hctxPresent = true ∧
      (s.init env).1.readers.length = env.readerNames.length ∧
      ∀ i : Nat, (s.init env).1.readers[i]?.map (fun r => (r.id, r.name, r.Use)) =
        env.readerNames[i]?.map fun n => (i + 1, n, false)) := by
  refine ⟨?_, ?_, ?_, ?_⟩
  · intro h; simp [SDKState.init, h]
  · intro h1 h2; simp [SDKState.init, h1, h2]
  · intro h1 h2 h3; simp [SDKState.init, h1, h2, h3]
  · intro h1 h2 h3
    have hread : (s.init env).1.readers = specInventory 0 env.readerNames := by
      simp [SDKState.init, h1, h2, h3, initReaders_readers, h0]
    have hctx : (s.init env).1.hctxPresent = true := by
      simp [SDKState.init, h1, h2, h3, initReaders_hctxPresent]
    refine ⟨by simp [SDKState.init, h1, h2, h3], hctx, ?_, ?_⟩
    · rw [hread]; exact specInventory_length env.readerNames 0
    · intro i
      rw [hread]
      have h := specInventory_getElem env.readerNames 0 i
      simpa using h

/-- Witness for C7 on an environment discovering two readers. -/
theorem init_populates_inventory_witness :
    (sdk0.readers = [] ∧ envInitTwo.establishErr = [] ∧ envInitTwo.listErr = [] ∧
      envInitTwo.readerNames ≠ []) ∧
    ((sdk0.init envInitTwo).2 = [] ∧
      (sdk0.init envInitTwo).1.readers.length = 2 ∧
      (sdk0.init envInitTwo).1.readers[0]?.map (fun r => (r.id, r.name, r.Use)) =
        some (1, "R0", false) ∧
      (sdk0.init envInitTwo).1.readers[1]?.map (fun r => (r.id, r.name, r.Use)) =
        some (2, "R1", false)) :=
  ⟨⟨rfl, rfl, rfl, by decide⟩, by
    have h := (init_populates_inventory sdk0 envInitTwo rfl).2.2.2 rfl rfl (by decide)
    refine ⟨h.1, ?_, ?_, ?_⟩
    · rw [h.2.2.1]; rfl
    · rw [h.2.2.2 0]; rfl
    · rw [h.2.2.2 1]; rfl⟩

/-- C4: with no registered selector and a non-empty inventory, the
selection step of Run enables exactly the first discovered reader - its
use flag becomes true, every other reader keeps its flag, and when the
inventory came from init (all flags unset) the first reader is the only
enabled one. -/
theorem run_default_selects_first (env : RunEnv) (s : SDKState) (fuel : Nat)
    (r0 : Reader) (rest : List Reader)
    (hv : env.validAt 0 = []) (hsel : s.readerSelect = none) (hr : s.readers = r0 :: rest) :
    (Run env s fuel).rs.sdk.readers = { r0 with Use := true } :: rest ∧
    ((∀ r ∈ rest, r.Use = false) →
      ((Run env s fuel).rs.sdk.readers.filter fun r => r.Use) = [{ r0 with Use := true }]) := by
  have hrw := Run_loop_default env s fuel r0 rest hv hr hsel
  have hp := runLoop_preserved env fuel 0
    { sdk := { s with readers := { r0 with Use := true } :: rest }, validCnt := 1 }
    ({ Reader := r0.name, CurrentState := ScardStateUnaware, EventState := 0 } ::
      buildStates rest)
  have hreaders : (Run env s fuel).rs.sdk.readers = { r0 with Use := true } :: rest := by
    rw [hrw]
    simpa using hp.1
  refine ⟨hreaders, ?_⟩
  intro hall
  rw [hreaders]
  have : (rest.filter fun r => r.Use) = [] := filter_use_nil rest hall
  simp [this]

/-- Witness for C4 on the two-reader inventory. -/
theorem run_default_selects_first_witness :
    (envIdle.validAt 0 = [] ∧ sdkTwo.readerSelect = none ∧
      sdkTwo.readers = [readerR0, readerR1]) ∧
    ((Run envIdle sdkTwo 1).rs.sdk.readers = [{ readerR0 with Use := true }, readerR1] ∧
      ((Run envIdle sdkTwo 1).rs.sdk.readers.filter fun r => r.Use) =
        [{ readerR0 with Use := true }]) :=
  ⟨⟨rfl, rfl, rfl⟩, by
    have h := run_default_selects_first envIdle sdkTwo 1 readerR0 [readerR1] rfl rfl rfl
    exact ⟨h.1, h.2 (by decide)⟩⟩

/-- C5: when selection leaves no reader enabled (here: the registered
selector returned a subset with no use flag set, such as the empty one),
Run fails with the dedicated no-readers-enabled error, signals it as the
cancellation cause, waits on the cleanup barrier, and returns it before
any wait-for-change call is issued. -/
theorem run_none_enabled_failfast (env : RunEnv) (s : SDKState) (fuel : Nat)
    (f : ReaderSelectFunc) (rs2 : List Reader)
    (hstop : s.stopCause = none)
    (hv : env.validAt 0 = []) (hr : s.readers ≠ [])
    (hsel : s.readerSelect = some f) (hf : f s.readers = (rs2, []))
    (hempty : ∀ r ∈ rs2, r.Use = false) :
    (Run env s fuel).err = [ErrAtom.noReadersEnabled] ∧
    (Run env s fuel).rs.sdk.stopCause = some [ErrAtom.noReadersEnabled] ∧
    (Run env s fuel).rs.sdk.wgWaits = s.wgWaits + 1 ∧
    (Run env s fuel).rs.waitLog = [] ∧
    (Run env s fuel).rs.waitCnt = 0 := by
  have hrw := Run_none_enabled env s fuel f rs2 hv hr hsel hf
    (buildStates_nil_of_no_use rs2 hempty)
  rw [hrw]
  refine ⟨rfl, ?_, by simp, rfl, rfl⟩
  simp only [SDKState.wgWait_stopCause]
  exact SDKState.stop_of_none _ _ (by simpa using hstop)

/-- Witness for C5 with the empty selector on a one-reader inventory. -/
theorem run_none_enabled_failfast_witness :
    (sdkEmptySel.stopCause = none ∧ envIdle.validAt 0 = [] ∧ sdkEmptySel.readers ≠ [] ∧
      sdkEmptySel.readerSelect = some emptySelector ∧
      emptySelector sdkEmptySel.readers = ([], [])) ∧
    ((Run envIdle sdkEmptySel 1).err = [ErrAtom.noReadersEnabled] ∧
      (Run envIdle sdkEmptySel 1).rs.sdk.stopCause = some [ErrAtom.noReadersEnabled] ∧
      (Run envIdle sdkEmptySel 1).rs.waitCnt = 0) :=
  ⟨⟨rfl, rfl, by decide, rfl, rfl⟩, by
    have h := run_none_enabled_failfast envIdle sdkEmptySel 1 emptySelector []
      rfl rfl (by decide) rfl rfl (by simp)
    exact ⟨h.1, h.2.1, h.2.2.2.2⟩⟩

/-- C6: an invalid session at entry or an empty inventory prevents Run
from entering the loop: the accumulated error - the join of both errors
when both checks fail - is signalled as the cancellation cause, the
cleanup barrier is waited on, and that same error is returned; no loop
revalidation or wait call ever happens. -/
theorem run_preloop_checks_failfast (env : RunEnv) (s : SDKState) (fuel : Nat)
    (hstop : s.stopCause = none)
    (h : env.validAt 0 ≠ [] ∨ s.readers = []) :
    (Run env s fuel).err =
      env.validAt 0 ++ (if s.readers = [] then [ErrAtom.noReadersPresent] else []) ∧
    (Run env s fuel).rs.sdk.stopCause = some (Run env s fuel).err ∧
    (Run env s fuel).rs.sdk.wgWaits = s.wgWaits + 1 ∧
    (Run env s fuel).rs.waitLog = [] ∧
    (Run env s fuel).rs.validCnt = 1 ∧
    (Run env s fuel).rs.waitCnt = 0 := by
  have hrw := Run_preloop_fail env s fuel h
  rw [hrw]
  by_cases hre : s.readers = []
  · refine ⟨by simp [hre], ?_, by simp, rfl, rfl, rfl⟩
    simp only [SDKState.wgWait_stopCause, hre, if_pos]
    exact SDKState.stop_of_none _ _ (by simpa using hstop)
  · refine ⟨by simp [hre], ?_, by simp, rfl, rfl, rfl⟩
    simp only [SDKState.wgWait_stopCause, hre, if_neg]
    exact SDKState.stop_of_none _ _ (by simpa using hstop)

/-- Witness for C6 with an invalid context and an empty inventory: both
errors are joined. -/
theorem run_preloop_checks_failfast_witness :
    (sdk0.stopCause = none ∧ (envInvalid.validAt 0 ≠ [] ∨ sdk0.readers = [])) ∧
    ((Run envInvalid sdk0 3).err = [ErrAtom.hctxInvalid 9, ErrAtom.noReadersPresent] ∧
      (Run envInvalid sdk0 3).rs.sdk.stopCause =
        some [ErrAtom.hctxInvalid 9, ErrAtom.noReadersPresent] ∧
      (Run envInvalid sdk0 3).rs.waitCnt = 0) :=
  ⟨⟨rfl, by right; rfl⟩, by
    have h := run_preloop_checks_failfast envInvalid sdk0 3 rfl (by right; rfl)
    refine ⟨by rw [h.1]; rfl, ?_, h.2.2.2.2.2⟩
    rw [h.2.1, h.1]; rfl⟩

/-- C10: a failing registered selector still replaces the stored
inventory with the slice it returned (possibly empty) before Run fails
with the selector error; the pre-selection inventory is not restored. -/
theorem run_selector_error_replaces_inventory (env : RunEnv) (s : SDKState) (fuel : Nat)
    (f : ReaderSelectFunc) (rs2 : List Reader) (e : GoError)
    (hv : env.validAt 0 = []) (hr : s.readers ≠ [])
    (hsel : s.readerSelect = some f) (hf : f s.readers = (rs2, e)) (he : e ≠ []) :
    (Run env s fuel).rs.sdk.readers = rs2 ∧
    (Run env s fuel).err = e ∧
    (Run env s fuel).rs.waitLog = [] := by
  have hrw := Run_selector_err env s fuel f rs2 e hv hr hsel hf he
  rw [hrw]
  exact ⟨by simp, rfl, rfl⟩

/-- Witness for C10 with the failing selector: the one-reader inventory
is replaced by the empty slice. -/
theorem run_selector_error_replaces_inventory_witness :
    (envIdle.validAt 0 = [] ∧ sdkFailSel.readers ≠ [] ∧
      sdkFailSel.readerSelect = some failSelector ∧
      failSelector sdkFailSel.readers = ([], [ErrAtom.selectorFail 5])) ∧
    ((Run envIdle sdkFailSel 1).rs.sdk.readers = [] ∧
      (Run envIdle sdkFailSel 1).err = [ErrAtom.selectorFail 5]) :=
  ⟨⟨rfl, by decide, rfl, rfl⟩, by
    have h := run_selector_error_replaces_inventory envIdle sdkFailSel 1 failSelector []
      [ErrAtom.selectorFail 5] rfl (by decide) rfl rfl (by decide)
    exact ⟨h.1, h.2.1⟩⟩

/-- Every Run either issues no wait call at all, or its wait-call log is
a chain starting from states that are all unaware with zero event
state. -/
theorem Run_waitLog_chain (env : RunEnv) (s : SDKState) (fuel : Nat) :
    (Run env s fuel).rs.waitLog = [] ∨
    ∃ states0 : List ReaderState,
      (∀ st ∈ states0, st.CurrentState = ScardStateUnaware ∧ st.EventState = 0) ∧
      waitChain env states0 0 (Run env s fuel).rs.waitLog := by
  by_cases hv : env.validAt 0 = []
  · by_cases hre : s.readers = []
    · left; rw [Run_preloop_fail env s fuel (Or.inr hre)]
    · cases hsel : s.readerSelect with
      | none =>
          obtain ⟨r0, rest, hcons⟩ : ∃ r0 rest, s.readers = r0 :: rest := by
            cases hc : s.readers with
            | nil => exact absurd hc hre
            | cons a b => exact ⟨a, b, rfl⟩
          right
          obtain ⟨d, hlog, hchain⟩ := runLoop_waitLog env fuel 0
            { sdk := { s with readers := { r0 with Use := true } :: rest }, validCnt := 1 }
            ({ Reader := r0.name, CurrentState := ScardStateUnaware, EventState := 0 } ::
              buildStates rest)
          refine ⟨{ Reader := r0.name, CurrentState := ScardStateUnaware, EventState := 0 } ::
            buildStates rest, ?_, ?_⟩
          · have hb : ({ Reader := r0.name, CurrentState := ScardStateUnaware,
                         EventState := 0 } :: buildStates rest) =
                buildStates ({ r0 with Use := true } :: rest) := by
              simp [buildStates]
            rw [hb]
            exact buildStates_unaware _
          · rw [Run_loop_default env s fuel r0 rest hv hcons hsel]
            simp only [] at hlog ⊢
            simpa using hlog ▸ hchain
      | some f =>
          rcases hfe : f s.readers with ⟨rs2, e⟩
          by_cases he : e = []
          · subst he
            by_cases hb : buildStates rs2 = []
            · left; rw [Run_none_enabled env s fuel f rs2 hv hre hsel hfe hb]
            · right
              obtain ⟨d, hlog, hchain⟩ := runLoop_waitLog env fuel 0
                { sdk := { s with readers := rs2 }, validCnt := 1 } (buildStates rs2)
              refine ⟨buildStates rs2, buildStates_unaware rs2, ?_⟩
              rw [Run_loop_selector env s fuel f rs2 hv hre hsel hfe hb]
              simpa using hlog ▸ hchain
          · left; rw [Run_selector_err env s fuel f rs2 e hv hre hsel hfe he]
  · left; rw [Run_preloop_fail env s fuel (Or.inl hv)]

/-- C8: every tracked reader starts unaware before the first wait call,
and the argument of each wait call after the first is the argument of
the previous one with the delivered event states installed and then
copied into CurrentState by the arming step - so at every wait call each
entry's CurrentState equals the event state delivered by the previous
wait. -/
theorem run_wait_states_chain (env : RunEnv) (s : SDKState) (fuel : Nat)
    (k : Nat) (sts0 : List ReaderState)
    (h0 : (Run env s fuel).rs.waitLog.head? = some sts0)
    (hk : k + 1 < (Run env s fuel).rs.waitLog.length) :
    (∀ st ∈ sts0, st.CurrentState = ScardStateUnaware ∧ st.EventState = 0) ∧
    (Run env s fuel).rs.waitLog[k + 1]?.getD [] =
      armNext (applyWait ((Run env s fuel).rs.waitLog[k]?.getD []) (env.waitAt k).2) := by
  rcases Run_waitLog_chain env s fuel with hnil | ⟨states0, hstates, hchain⟩
  · rw [hnil] at h0; simp at h0
  · have hfacts := waitChain_getD env ((Run env s fuel).rs.waitLog) states0 0 hchain
    have hs0 : sts0 = states0 := hfacts.1 sts0 h0
    subst hs0
    refine ⟨hstates, ?_⟩
    have h2 := hfacts.2 k hk
    simpa using h2

/-- Witness for C8 on a two-iteration clean run over one reader. -/
theorem run_wait_states_chain_witness :
    ((Run envTwoIter sdkOne 5).rs.waitLog.head? =
        some [{ Reader := "R0", CurrentState := 0, EventState := 0 }] ∧
      0 + 1 < (Run envTwoIter sdkOne 5).rs.waitLog.length) ∧
    ((∀ st ∈ [({ Reader := "R0", CurrentState := 0, EventState := 0 } : ReaderState)],
        st.CurrentState = ScardStateUnaware ∧ st.EventState = 0) ∧
      (Run envTwoIter sdkOne 5).rs.waitLog[0 + 1]?.getD [] =
        armNext (applyWait ((Run envTwoIter sdkOne 5).rs.waitLog[0]?.getD [])
          (envTwoIter.waitAt 0).2)) :=
  ⟨⟨rfl, by decide⟩,
   run_wait_states_chain envTwoIter sdkOne 5 0
     [{ Reader := "R0", CurrentState := 0, EventState := 0 }] rfl (by decide)⟩

/-- C9: each card-session handler invocation attempts connect exactly
once, with exclusive share mode and protocol auto-negotiation; a connect
failure is recorded as an error event and no disconnect is attempted; a
connect success immediately disconnects exactly once with the reset
disposition; a disconnect failure is recorded without any retry; and no
connect or disconnect outcome terminates the event loop - with a valid
context the per-state pass never breaks the runner loop, and a loop with
a valid context and successful waits ends only by cancellation or fuel,
with a nil error. -/
theorem handleCard_connect_once_nonfatal :
    (∀ env : RunEnv, ∀ rs : RunSt, ∀ name : String,
      (handleCard env rs name).connectLog =
        rs.connectLog ++ [(name, ScardShareExclusive, ScardProtocolAny)] ∧
      (handleCard env rs name).connectCnt = rs.connectCnt + 1) ∧
    (∀ env : RunEnv, ∀ rs : RunSt, ∀ name : String, env.connectAt rs.connectCnt ≠ [] →
      (handleCard env rs name).disconnectLog = rs.disconnectLog ∧
      (handleCard env rs name).disconnectCnt = rs.disconnectCnt ∧
      (rs.sdk.hasLogger = true →
        (handleCard env rs name).sdk.log =
          rs.sdk.log ++ [{ level := .error,
                           msg := logTag ++ (env.connectAt rs.connectCnt).message }])) ∧
    (∀ env : RunEnv, ∀ rs : RunSt, ∀ name : String, env.connectAt rs.connectCnt = [] →
      (handleCard env rs name).disconnectLog = rs.disconnectLog ++ [ScardResetCard] ∧
      (handleCard env rs name).disconnectCnt = rs.disconnectCnt + 1) ∧
    (∀ env : RunEnv, ∀ rs : RunSt, ∀ name : String, env.connectAt rs.connectCnt = [] →
      env.disconnectAt rs.disconnectCnt ≠ [] → rs.sdk.hasLogger = true →
      (handleCard env rs name).sdk.log =
        rs.sdk.log ++ [{ level := .debug, msg := logTag ++ "card connected" },
          { level := .error,
            msg := logTag ++ (env.disconnectAt rs.disconnectCnt).message }]) ∧
    (∀ env : RunEnv, ∀ sts : List ReaderState, ∀ rs : RunSt,
      (∀ n, env.validAt n = []) → (innerLoop env rs sts).2.2 = none) ∧
    (∀ env : RunEnv, (∀ n, env.validAt n = []) → (∀ n, (env.waitAt n).1 = []) →
      ∀ fuel iter : Nat, ∀ rs : RunSt, ∀ states : List ReaderState,
        (runLoop env fuel iter rs states).2.2 = []) := by
  refine ⟨?_, ?_, ?_, ?_, ?_, ?_⟩
  · intro env rs name
    by_cases hc : env.connectAt rs.connectCnt = [] <;>
      by_cases hd : env.disconnectAt rs.disconnectCnt = [] <;>
        simp [handleCard, hc, hd]
  · intro env rs name hc
    constructor
    · simp [handleCard, hc]
    constructor
    · simp [handleCard, hc]
    · intro hl
      simp [handleCard, hc, SDKState.error, SDKState.Log, hl]
  · intro env rs name hc
    by_cases hd : env.disconnectAt rs.disconnectCnt = [] <;>
      simp [handleCard, hc, hd]
  · intro env rs name hc hd hl
    simp [handleCard, hc, hd, SDKState.error, SDKState.Log, hl]
  · intro env sts rs hv
    exact innerLoop_none_of_valid env sts hv rs
  · intro env hv hw fuel iter rs states
    exact runLoop_clean env hv hw fuel iter rs states

/-- Witness for C9: a present card whose connect fails is recorded, no
disconnect is attempted, and the loop still reaches its second wait
call. -/
theorem handleCard_connect_once_nonfatal_witness :
    (envConnFail.connectAt rsInit.connectCnt ≠ [] ∧ (∀ n, envConnFail.validAt n = [])) ∧
    ((handleCard envConnFail rsInit "R0").connectLog =
        [("R0", ScardShareExclusive, ScardProtocolAny)] ∧
      (handleCard envConnFail rsInit "R0").connectCnt = 1 ∧
      (handleCard envConnFail rsInit "R0").disconnectLog = [] ∧
      (innerLoop envConnFail rsInit
        [{ Reader := "R0", CurrentState := 0, EventState := ScardStatePresent }]).2.2 =
        none ∧
      (Run envConnFail sdkOne 5).rs.waitLog.length = 2 ∧
      (Run envConnFail sdkOne 5).err = []) :=
  ⟨⟨by decide, fun n => rfl⟩, by
    have h := handleCard_connect_once_nonfatal
    have h1 := h.1 envConnFail rsInit "R0"
    have h2 := h.2.1 envConnFail rsInit "R0" (by decide)
    have h5 := h.2.2.2.2.1 envConnFail
      [{ Reader := "R0", CurrentState := 0, EventState := ScardStatePresent }]
      rsInit (fun n => rfl)
    exact ⟨by simpa [rsInit] using h1.1, by simpa [rsInit] using h1.2,
      by simpa [rsInit] using h2.1, h5, by rfl, by rfl⟩⟩

/-- Logging never removes events: membership in the log is preserved by
every facade call. -/
theorem SDKState.Log_log_mono (s : SDKState) (l : LogLevel) (m : String)
    (x : LogEvent) (h : x ∈ s.log) : x ∈ (s.Log l m).log := by
  unfold SDKState.Log
  split
  · simp [h]
  · exact h

theorem handleCard_hasLogger (env : RunEnv) (rs : RunSt) (name : String) :
    (handleCard env rs name).sdk.hasLogger = rs.sdk.hasLogger := by
  by_cases hc : env.connectAt rs.connectCnt = []
  · by_cases hd : env.disconnectAt rs.disconnectCnt = []
    · simp [handleCard, hc, hd]
    · simp [handleCard, hc, hd]
  · simp [handleCard, hc]

theorem innerLoop_hasLogger (env : RunEnv) (sts : List ReaderState) :
    ∀ rs : RunSt, (innerLoop env rs sts).2.1.sdk.hasLogger = rs.sdk.hasLogger := by
  induction sts with
  | nil => intro rs; simp [innerLoop]
  | cons st rest ih =>
      intro rs
      by_cases hp : st.EventState &&& ScardStatePresent = 0
      · have h2 := ih { rs with sdk := rs.sdk.debug "no card present, waiting..." }
        simp [innerLoop, hp] at h2 ⊢
        exact h2
      · by_cases he : env.validAt rs.validCnt = []
        · have h1 := handleCard_hasLogger env
            { rs with
              sdk := rs.sdk.debug "card is present in the reader."
              validCnt := rs.validCnt + 1 } st.Reader
          have h2 := ih (handleCard env
            { rs with
              sdk := rs.sdk.debug "card is present in the reader."
              validCnt := rs.validCnt + 1 } st.Reader)
          simp [innerLoop, hp, he] at h1 h2 ⊢
          simp_all
        · simp [innerLoop, hp, he]

/-- A break of the per-state pass carries a non-nil error, and that very
error has been recorded as an error-level log event (whenever a logger is
injected) by the time the pass returns. -/
theorem innerLoop_break_logged (env : RunEnv) (sts : List ReaderState) :
    ∀ rs : RunSt, ∀ e : GoError, (innerLoop env rs sts).2.2 = some e →
      e ≠ [] ∧
      (rs.sdk.hasLogger = true →
        { level := LogLevel.error, msg := logTag ++ GoError.message e } ∈
          (innerLoop env rs sts).2.1.sdk.log) := by
  induction sts with
  | nil => intro rs e h; simp [innerLoop] at h
  | cons st rest ih =>
      intro rs e h
      by_cases hp : st.EventState &&& ScardStatePresent = 0
      · have h2 : (innerLoop env
            { rs with sdk := rs.sdk.debug "no card present, waiting..." } rest).2.2 =
            some e := by
          simpa [innerLoop, hp] using h
        have hi := ih _ e h2
        refine ⟨hi.1, fun hl => ?_⟩
        have hm := hi.2 (by simpa using hl)
        simpa [innerLoop, hp] using hm
      · by_cases he : env.validAt rs.validCnt = []
        · have h2 : (innerLoop env (handleCard env
              { rs with
                sdk := rs.sdk.debug "card is present in the reader."
                validCnt := rs.validCnt + 1 } st.Reader) rest).2.2 = some e := by
            simpa [innerLoop, hp, he] using h
          have hi := ih _ e h2
          refine ⟨hi.1, fun hl => ?_⟩
          have hhl : (handleCard env
              { rs with
                sdk := rs.sdk.debug "card is present in the reader."
                validCnt := rs.validCnt + 1 } st.Reader).sdk.hasLogger = true := by
            rw [handleCard_hasLogger]
            simpa using hl
          have hm := hi.2 hhl
          simpa [innerLoop, hp, he] using hm
        · have hee : env.validAt rs.validCnt = e := by
            simpa [innerLoop, hp, he] using h
          refine ⟨by rw [← hee]; exact he, fun hl => ?_⟩
          rw [← hee]
          simp [innerLoop, hp, he, SDKState.error, SDKState.Log, hl]

/-- A non-nil error of the runner loop has been recorded as an
error-level log event by the time the loop returns (whenever a logger is
injected): loop-time fatal errors are logged, not signalled. -/
theorem runLoop_error_logged (env : RunEnv) (fuel : Nat) :
    ∀ iter : Nat, ∀ rs : RunSt, ∀ states : List ReaderState,
      (runLoop env fuel iter rs states).2.2 ≠ [] →
      rs.sdk.hasLogger = true →
      { level := LogLevel.error,
        msg := logTag ++ GoError.message ((runLoop env fuel iter rs states).2.2) } ∈
        (runLoop env fuel iter rs states).1.sdk.log := by
  induction fuel with
  | zero => intro iter rs states h _; simp [runLoop] at h
  | succ n ih =>
      intro iter rs states h hl
      by_cases hd : env.doneAt iter
      · simp [runLoop, hd] at h
      · by_cases he : env.validAt rs.validCnt = []
        · by_cases hw : (env.waitAt rs.waitCnt).1 = []
          · cases hbr : (innerLoop env
                { rs with
                  sdk := rs.sdk
                  validCnt := rs.validCnt + 1
                  waitCnt := rs.waitCnt + 1
                  waitLog := rs.waitLog ++ [states] }
                (applyWait states (env.waitAt rs.waitCnt).2)).2.2 with
            | some e =>
                have hinner := innerLoop_break_logged env
                  (applyWait states (env.waitAt rs.waitCnt).2)
                  { rs with
                    sdk := rs.sdk
                    validCnt := rs.validCnt + 1
                    waitCnt := rs.waitCnt + 1
                    waitLog := rs.waitLog ++ [states] } e hbr
                have hm := hinner.2 (by simpa using hl)
                simp [runLoop, hd, he, hw, hbr]
                simpa using hm
            | none =>
                have hrecerr : (runLoop env n (iter + 1)
                    (innerLoop env
                      { rs with
                        sdk := rs.sdk
                        validCnt := rs.validCnt + 1
                        waitCnt := rs.waitCnt + 1
                        waitLog := rs.waitLog ++ [states] }
                      (applyWait states (env.waitAt rs.waitCnt).2)).2.1
                    (innerLoop env
                      { rs with
                        sdk := rs.sdk
                        validCnt := rs.validCnt + 1
                        waitCnt := rs.waitCnt + 1
                        waitLog := rs.waitLog ++ [states] }
                      (applyWait states (env.waitAt rs.waitCnt).2)).1).2.2 ≠ [] := by
                  simpa [runLoop, hd, he, hw, hbr] using h
                have hrecl : (innerLoop env
                    { rs with
                      sdk := rs.sdk
                      validCnt := rs.validCnt + 1
                      waitCnt := rs.waitCnt + 1
                      waitLog := rs.waitLog ++ [states] }
                    (applyWait states (env.waitAt rs.waitCnt).2)).2.1.sdk.hasLogger =
                    true := by
                  rw [innerLoop_hasLogger]
                  simpa using hl
                have hrec := ih (iter + 1) _ _ hrecerr hrecl
                simp [runLoop, hd, he, hw, hbr]
                simpa using hrec
          · simp [runLoop, hd, he, hw, SDKState.error, SDKState.Log, hl]
        · simp [runLoop, hd, he, SDKState.error, SDKState.Log, hl]

/-- Every return path of Run performs exactly one wait on the background
cleanup task. -/
theorem Run_wgWaits (env : RunEnv) (s : SDKState) (fuel : Nat) :
    (Run env s fuel).rs.sdk.wgWaits = s.wgWaits + 1 := by
  by_cases hv : env.validAt 0 = []
  · by_cases hre : s.readers = []
    · rw [Run_preloop_fail env s fuel (Or.inr hre)]; simp
    · cases hsel : s.readerSelect with
      | none =>
          obtain ⟨r0, rest, hcons⟩ : ∃ r0 rest, s.readers = r0 :: rest := by
            cases hc : s.readers with
            | nil => exact absurd hc hre
            | cons a b => exact ⟨a, b, rfl⟩
          rw [Run_loop_default env s fuel r0 rest hv hcons hsel]
          have hp := runLoop_preserved env fuel 0
            { sdk := { s with readers := { r0 with Use := true } :: rest }, validCnt := 1 }
            ({ Reader := r0.name, CurrentState := ScardStateUnaware, EventState := 0 } ::
              buildStates rest)
          simp only []
          simp [hp.2.2.1]
      | some f =>
          rcases hfe : f s.readers with ⟨rs2, e⟩
          by_cases he : e = []
          · subst he
            by_cases hb : buildStates rs2 = []
            · rw [Run_none_enabled env s fuel f rs2 hv hre hsel hfe hb]; simp
            · rw [Run_loop_selector env s fuel f rs2 hv hre hsel hfe hb]
              have hp := runLoop_preserved env fuel 0
                { sdk := { s with readers := rs2 }, validCnt := 1 } (buildStates rs2)
              simp only []
              simp [hp.2.2.1]
          · rw [Run_selector_err env s fuel f rs2 e hv hre hsel hfe he]; simp
  · rw [Run_preloop_fail env s fuel (Or.inl hv)]; simp

/-- C1 counterexample: a failing wait call is a fatal error, and Run
returns it, but the cancellation context is never signalled with it -
the cancellation cause is still unset when Run returns - so not every
fatal error is funnelled through the cancellation signal. -/
theorem run_error_funnel_cex :
    (Run envWaitFail sdkOne 5).err = [ErrAtom.waitFail 7] ∧
    (Run envWaitFail sdkOne 5).rs.sdk.stopCause = none ∧
    (Run envWaitFail sdkOne 5).rs.sdk.wgWaits = 1 :=
  ⟨rfl, rfl, rfl⟩

/-- C1 (amended): every pre-loop fatal error - invalid session at entry,
empty inventory (joined when both occur), selector failure, empty
selection - is signalled on the cancellation context with the causal
error, and that same error is returned; fatal errors inside the loop
(session invalidation during the loop, wait-call failure) are only
logged, never signalled: the cancellation cause stays untouched, Run
returns exactly the error the loop broke with, and whenever a logger is
injected that returned error has been recorded as an error-level log
event; and every path, success or failure, returns after exactly one
wait on the background cleanup task. -/
theorem run_error_funnel_amended (env : RunEnv) (s : SDKState) (fuel : Nat) :
    (Run env s fuel).rs.sdk.wgWaits = s.wgWaits + 1 ∧
    (s.stopCause = none →
      ((env.validAt 0 ≠ [] ∨ s.readers = []) →
        (Run env s fuel).err ≠ [] ∧
        (Run env s fuel).rs.sdk.stopCause = some ((Run env s fuel).err)) ∧
      (∀ f : ReaderSelectFunc, ∀ rs2 : List Reader, ∀ e : GoError,
        env.validAt 0 = [] → s.readers ≠ [] → s.readerSelect = some f →
        f s.readers = (rs2, e) → e ≠ [] →
        (Run env s fuel).err = e ∧ (Run env s fuel).rs.sdk.stopCause = some e) ∧
      (∀ f : ReaderSelectFunc, ∀ rs2 : List Reader,
        env.validAt 0 = [] → s.readers ≠ [] → s.readerSelect = some f →
        f s.readers = (rs2, []) → buildStates rs2 = [] →
        (Run env s fuel).err = [ErrAtom.noReadersEnabled] ∧
        (Run env s fuel).rs.sdk.stopCause = some [ErrAtom.noReadersEnabled]) ∧
      (∀ r0 : Reader, ∀ rest : List Reader,
        env.validAt 0 = [] → s.readers = r0 :: rest → s.readerSelect = none →
        (Run env s fuel).rs.sdk.stopCause = none ∧
        (Run env s fuel).err =
          (runLoop env fuel 0
            { sdk := { s with readers := { r0 with Use := true } :: rest }, validCnt := 1 }
            ({ Reader := r0.name, CurrentState := ScardStateUnaware, EventState := 0 } ::
              buildStates rest)).2.2 ∧
        ((Run env s fuel).err ≠ [] → s.hasLogger = true →
          { level := LogLevel.error,
            msg := logTag ++ GoError.message ((Run env s fuel).err) } ∈
            (Run env s fuel).rs.sdk.log)) ∧
      (∀ f : ReaderSelectFunc, ∀ rs2 : List Reader,
        env.validAt 0 = [] → s.readers ≠ [] → s.readerSelect = some f →
        f s.readers = (rs2, []) → buildStates rs2 ≠ [] →
        (Run env s fuel).rs.sdk.stopCause = none ∧
        (Run env s fuel).err =
          (runLoop env fuel 0
            { sdk := { s with readers := rs2 }, validCnt := 1 } (buildStates rs2)).2.2 ∧
        ((Run env s fuel).err ≠ [] → s.hasLogger = true →
          { level := LogLevel.error,
            msg := logTag ++ GoError.message ((Run env s fuel).err) } ∈
            (Run env s fuel).rs.sdk.log))) := by
  refine ⟨Run_wgWaits env s fuel, ?_⟩
  intro hstop
  refine ⟨?_, ?_, ?_, ?_, ?_⟩
  · intro h
    have hrw := Run_preloop_fail env s fuel h
    rw [hrw]
    have hcond : (if s.readers = [] then env.validAt 0 ++ [ErrAtom.noReadersPresent]
        else env.validAt 0) ≠ [] := by
      rcases h with h | h
      · by_cases hr : s.readers = [] <;> simp [hr, h]
      · simp [h]
    refine ⟨hcond, ?_⟩
    simp only [SDKState.wgWait_stopCause]
    exact SDKState.stop_of_none _ _ (by simpa using hstop)
  · intro f rs2 e hv hre hsel hfe he
    rw [Run_selector_err env s fuel f rs2 e hv hre hsel hfe he]
    refine ⟨rfl, ?_⟩
    simp only [SDKState.wgWait_stopCause]
    exact SDKState.stop_of_none _ _ (by simpa using hstop)
  · intro f rs2 hv hre hsel hfe hb
    rw [Run_none_enabled env s fuel f rs2 hv hre hsel hfe hb]
    refine ⟨rfl, ?_⟩
    simp only [SDKState.wgWait_stopCause]
    exact SDKState.stop_of_none _ _ (by simpa using hstop)
  · intro r0 rest hv hcons hsel
    have hrw := Run_loop_default env s fuel r0 rest hv hcons hsel
    have hp := runLoop_preserved env fuel 0
      { sdk := { s with readers := { r0 with Use := true } :: rest }, validCnt := 1 }
      ({ Reader := r0.name, CurrentState := ScardStateUnaware, EventState := 0 } ::
        buildStates rest)
    refine ⟨?_, ?_, ?_⟩
    · rw [hrw]
      simp only []
      simp [hp.2.1]
      exact hstop
    · rw [hrw]
    · intro hne hl
      rw [hrw] at hne ⊢
      exact SDKState.Log_log_mono _ _ _ _
        (runLoop_error_logged env fuel 0
          { sdk := { s with readers := { r0 with Use := true } :: rest }, validCnt := 1 }
          ({ Reader := r0.name, CurrentState := ScardStateUnaware, EventState := 0 } ::
            buildStates rest) hne (by simpa using hl))
  · intro f rs2 hv hre hsel hfe hb
    have hrw := Run_loop_selector env s fuel f rs2 hv hre hsel hfe hb
    have hp := runLoop_preserved env fuel 0
      { sdk := { s with readers := rs2 }, validCnt := 1 } (buildStates rs2)
    refine ⟨?_, ?_, ?_⟩
    · rw [hrw]
      simp only []
      simp [hp.2.1]
      exact hstop
    · rw [hrw]
    · intro hne hl
      rw [hrw] at hne ⊢
      exact SDKState.Log_log_mono _ _ _ _
        (runLoop_error_logged env fuel 0
          { sdk := { s with readers := rs2 }, validCnt := 1 } (buildStates rs2)
          hne (by simpa using hl))

/-- Witness for C1 (amended): a run whose context is invalidated inside
the loop waits once on the cleanup barrier, leaves the cancellation
cause unset, returns the in-loop invalidation error, and has recorded
that same error as an error-level log event. -/
theorem run_error_funnel_amended_witness :
    (sdkOne.stopCause = none ∧ envLoopInvalid.validAt 0 = [] ∧
      sdkOne.readers = [readerR0] ∧ sdkOne.readerSelect = none ∧
      sdkOne.hasLogger = true ∧ (Run envLoopInvalid sdkOne 5).err ≠ []) ∧
    ((Run envLoopInvalid sdkOne 5).rs.sdk.wgWaits = sdkOne.wgWaits + 1 ∧
      (Run envLoopInvalid sdkOne 5).rs.sdk.stopCause = none ∧
      (Run envLoopInvalid sdkOne 5).err = [ErrAtom.hctxInvalid 4] ∧
      { level := LogLevel.error,
        msg := logTag ++ GoError.message [ErrAtom.hctxInvalid 4] } ∈
        (Run envLoopInvalid sdkOne 5).rs.sdk.log) :=
  ⟨⟨rfl, rfl, rfl, rfl, rfl, by decide⟩, by
    have h := run_error_funnel_amended envLoopInvalid sdkOne 5
    have he1 := (h.2 rfl).2.2.2.1 readerR0 [] rfl rfl rfl
    have herr : (Run envLoopInvalid sdkOne 5).err = [ErrAtom.hctxInvalid 4] := rfl
    have hm := he1.2.2 (by decide) rfl
    rw [herr] at hm
    exact ⟨h.1, he1.1, herr, hm⟩⟩

end Nfcsdk
